import Mathlib

/-!
Verification of the wiki-diagrams dependency/credential magefile logic.

The development shallowly embeds the Go magefile sources: pure string
manipulation from the Go standard library is re-implemented over lists of
characters, and every interaction with the outside world (environment
variables, the file system, external processes) is passed in explicitly as
an environment value, so that each magefile function becomes a total Lean
function of its environment.
-/

/-! ## Character-list string primitives

These model the Go standard library string functions used by the magefiles
(strings.Fields, strings.TrimSpace, strings.TrimPrefix, strings.Contains,
strings.Split, strings.HasPrefix and filepath glob matching), working on
the character data of a string so that everything reduces in the kernel.
-/

/-- Does the first character list start with the second one (strings.HasPrefix)? -/
def charsHasPref : List Char → List Char → Bool
  | _, [] => true
  | [], _ :: _ => false
  | c :: cs, d :: ds => c = d && charsHasPref cs ds

/-- Does the first character list contain the second as a contiguous run
(strings.Contains)? -/
def charsContains : List Char → List Char → Bool
  | [], pat => pat.isEmpty
  | c :: cs, pat => charsHasPref (c :: cs) pat || charsContains cs pat

/-- Does the first character list end with the second (strings.HasSuffix)? -/
def charsEndsWith (l sfx : List Char) : Bool :=
  charsHasPref l.reverse sfx.reverse

/-- String containment test used by Mermaid.Verify and Docker.Secrets. -/
def strContains (s pat : String) : Bool :=
  charsContains s.data pat.data

/-- Model of strings.TrimSpace: drop whitespace from both ends. -/
def trimChars (l : List Char) : List Char :=
  ((l.dropWhile Char.isWhitespace).reverse.dropWhile Char.isWhitespace).reverse

/-- Model of strings.TrimSpace at string level. -/
def strTrim (s : String) : String :=
  String.mk (trimChars s.data)

/-- Model of strings.TrimPrefix: drop the given leading run when present. -/
def dropPref (pfx l : List Char) : List Char :=
  if charsHasPref l pfx then l.drop pfx.length else l

/-- Accumulator version of strings.Fields: split around runs of whitespace,
never producing empty fields. -/
def fieldsAux : List Char → List Char → List (List Char)
  | acc, [] => if acc.isEmpty then [] else [acc.reverse]
  | acc, c :: cs =>
    if c.isWhitespace then
      if acc.isEmpty then fieldsAux [] cs else acc.reverse :: fieldsAux [] cs
    else fieldsAux (c :: acc) cs

/-- Model of strings.Fields: the whitespace-separated tokens of a string. -/
def fieldsChars (l : List Char) : List (List Char) :=
  fieldsAux [] l

/-- Model of strings.Split on a newline separator: keeps empty pieces and
never returns an empty list. -/
def splitLines : List Char → List (List Char)
  | [] => [[]]
  | c :: cs =>
    if c = '\n' then [] :: splitLines cs
    else
      match splitLines cs with
      | [] => [[c]]
      | l :: ls => (c :: l) :: ls

/-! ## Lexicographic order on strings and the sort performed by filepath.Glob

Go's filepath.Glob reads the directory entries in sorted (lexical byte)
order, so the match list handed back to the callers is sorted; the
resolvers then pick the last element. We model the sort explicitly with an
insertion sort over the lexicographic order on character data.
-/

/-- Lexicographic comparison of character lists (byte-wise string order). -/
def charsLe : List Char → List Char → Bool
  | [], _ => true
  | _ :: _, [] => false
  | a :: as, b :: bs => if a < b then true else if a = b then charsLe as bs else false

/-- Lexicographic order on strings, as used implicitly by filepath.Glob. -/
def strLe (s t : String) : Bool :=
  charsLe s.data t.data

/-- Insert a string into a lexicographically sorted list of strings. -/
def insertKey (x : String) : List String → List String
  | [] => [x]
  | y :: ys => if strLe x y then x :: y :: ys else y :: insertKey x ys

/-- Sort a list of strings lexicographically (the order filepath.Glob
returns its matches in). -/
def sortKeys : List String → List String
  | [] => []
  | x :: xs => insertKey x (sortKeys xs)

theorem charsLe_refl (l : List Char) : charsLe l l = true := by
  induction l with
  | nil => rfl
  | cons a as ih => simp [charsLe, ih]

theorem charsLe_total (a b : List Char) :
    charsLe a b = true ∨ charsLe b a = true := by
  induction a generalizing b with
  | nil => left; rfl
  | cons x xs ih =>
    cases b with
    | nil => right; rfl
    | cons y ys =>
      rcases lt_trichotomy x y with hxy | hxy | hxy
      · left; simp [charsLe, hxy]
      · subst hxy
        rcases ih ys with h | h
        · left; simp [charsLe, h]
        · right; simp [charsLe, h]
      · right; simp [charsLe, hxy]

theorem charsLe_trans {a b c : List Char}
    (hab : charsLe a b = true) (hbc : charsLe b c = true) :
    charsLe a c = true := by
  induction a generalizing b c with
  | nil => rfl
  | cons x xs ih =>
    cases b with
    | nil => simp [charsLe] at hab
    | cons y ys =>
      cases c with
      | nil => simp [charsLe] at hbc
      | cons z zs =>
        simp only [charsLe] at hab hbc ⊢
        by_cases hxy : x < y
        · by_cases hyz : y < z
          · rw [if_pos (lt_trans hxy hyz)]
          · rw [if_neg hyz] at hbc
            by_cases hyz2 : y = z
            · subst hyz2; rw [if_pos hxy]
            · rw [if_neg hyz2] at hbc; cases hbc
        · rw [if_neg hxy] at hab
          by_cases hxy2 : x = y
          · subst hxy2
            rw [if_pos rfl] at hab
            by_cases hxz : x < z
            · rw [if_pos hxz]
            · rw [if_neg hxz] at hbc ⊢
              by_cases hxz2 : x = z
              · rw [if_pos hxz2] at hbc ⊢
                exact ih hab hbc
              · rw [if_neg hxz2] at hbc; cases hbc
          · rw [if_neg hxy2] at hab; cases hab

theorem strLe_refl (s : String) : strLe s s = true :=
  charsLe_refl s.data

theorem strLe_total (s t : String) : strLe s t = true ∨ strLe t s = true :=
  charsLe_total s.data t.data

theorem strLe_trans {s t u : String}
    (h1 : strLe s t = true) (h2 : strLe t u = true) : strLe s u = true :=
  charsLe_trans h1 h2

theorem mem_insertKey {a x : String} {l : List String} :
    a ∈ insertKey x l ↔ a = x ∨ a ∈ l := by
  induction l with
  | nil => simp [insertKey]
  | cons y ys ih =>
    by_cases h : strLe x y = true
    · simp only [insertKey, if_pos h, List.mem_cons]
    · simp only [insertKey, if_neg h, List.mem_cons, ih]
      tauto

theorem pairwise_insertKey {x : String} {l : List String}
    (hl : l.Pairwise (fun a b => strLe a b = true)) :
    (insertKey x l).Pairwise (fun a b => strLe a b = true) := by
  induction l with
  | nil => simp [insertKey]
  | cons y ys ih =>
    rcases List.pairwise_cons.mp hl with ⟨hy, hys⟩
    by_cases h : strLe x y = true
    · simp only [insertKey, if_pos h]
      refine List.pairwise_cons.mpr ⟨?_, hl⟩
      intro b hb
      rcases List.mem_cons.mp hb with rfl | hb
      · exact h
      · exact strLe_trans h (hy b hb)
    · simp only [insertKey, if_neg h]
      refine List.pairwise_cons.mpr ⟨?_, ih hys⟩
      intro b hb
      rcases mem_insertKey.mp hb with hbx | hb
      · rw [hbx]
        rcases strLe_total x y with h2 | h2
        · exact absurd h2 h
        · exact h2
      · exact hy b hb

theorem pairwise_sortKeys (l : List String) :
    (sortKeys l).Pairwise (fun a b => strLe a b = true) := by
  induction l with
  | nil => simp [sortKeys]
  | cons x xs ih => exact pairwise_insertKey ih

theorem mem_sortKeys {a : String} {l : List String} :
    a ∈ sortKeys l ↔ a ∈ l := by
  induction l with
  | nil => simp [sortKeys]
  | cons x xs ih =>
    simp [sortKeys, mem_insertKey, ih]

theorem pairwise_le_getLast {l : List String}
    (hp : l.Pairwise (fun a b => strLe a b = true))
    {x : String} (hx : x ∈ l) (hne : l ≠ []) :
    strLe x (l.getLast hne) = true := by
  induction l with
  | nil => cases hx
  | cons a t ih =>
    rcases List.pairwise_cons.mp hp with ⟨ha, ht⟩
    cases t with
    | nil =>
      rcases List.mem_singleton.mp hx with rfl
      exact strLe_refl _
    | cons b t2 =>
      rw [List.getLast_cons (by simp)]
      rcases List.mem_cons.mp hx with rfl | hx2
      · exact ha _ (List.getLast_mem (by simp))
      · exact ih ht hx2 (by simp)

/-- Decidable equality for Except values, so that concrete runs of the
embedded operations can be checked by evaluation. -/
def exceptDecEq {ε α : Type} [DecidableEq ε] [DecidableEq α] : DecidableEq (Except ε α)
  | .ok x, .ok y =>
    match decEq x y with
    | isTrue h => isTrue (by rw [h])
    | isFalse h => isFalse (by intro hc; cases hc; exact h rfl)
  | .ok _, .error _ => isFalse (by intro hc; cases hc)
  | .error _, .ok _ => isFalse (by intro hc; cases hc)
  | .error x, .error y =>
    match decEq x y with
    | isTrue h => isTrue (by rw [h])
    | isFalse h => isFalse (by intro hc; cases hc; exact h rfl)

instance {ε α : Type} [DecidableEq ε] [DecidableEq α] : DecidableEq (Except ε α) :=
  exceptDecEq

/-! ## Containment lemmas used for error-message wrapping claims -/

theorem charsHasPref_refl (l : List Char) : charsHasPref l l = true := by
  induction l with
  | nil => rfl
  | cons c cs ih => simp [charsHasPref, ih]

theorem charsHasPref_append (p q : List Char) :
    charsHasPref (p ++ q) p = true := by
  induction p with
  | nil => cases q <;> rfl
  | cons c cs ih => simp [charsHasPref, ih]

theorem charsContains_of_hasPref {l pat : List Char}
    (h : charsHasPref l pat = true) : charsContains l pat = true := by
  cases l with
  | nil =>
    cases pat with
    | nil => rfl
    | cons d ds => simp [charsHasPref] at h
  | cons c cs => simp [charsContains, h]

theorem charsContains_append_left (p q : List Char) :
    charsContains (p ++ q) p = true :=
  charsContains_of_hasPref (charsHasPref_append p q)

theorem charsContains_append_right (p q : List Char) :
    charsContains (p ++ q) q = true := by
  induction p with
  | nil => simpa using charsContains_of_hasPref (charsHasPref_refl q)
  | cons c cs ih =>
    simp only [List.cons_append, charsContains, List.append_eq, ih, Bool.or_true]

theorem str_data_append (a b : String) : (a ++ b).data = a.data ++ b.data := by
  cases a; cases b; rfl

theorem strContains_append_left (a b : String) :
    strContains (a ++ b) a = true := by
  simp only [strContains, str_data_append]
  exact charsContains_append_left a.data b.data

theorem strContains_append_right (a b : String) :
    strContains (a ++ b) b = true := by
  simp only [strContains, str_data_append]
  exact charsContains_append_right a.data b.data

/-! ## Go toolchain verification (magefile Go namespace)

Embedding of verifyGoVersion, checkGoVersionLatest and the self-healing
task of the Go namespace. The environment supplies the output of the
external command invocations: the output of running the go binary (none
when the binary is absent or the command fails) and the body fetched from
the remote version endpoint (none when the network is unavailable).
-/

/-- Pinned Go version used for reproducible builds. -/
def TargetGoVersion : String := "1.25.3"

/-- Typed outcomes of verifyGoVersion, mirroring its three error returns. -/
inductive GoVerifyError where
  | goBinaryNotFound
  | unexpectedOutput (out : String)
  | versionMismatch (found expected : String)
deriving DecidableEq

/-- Rendering of the Go verification errors to the exact message text. -/
def goVerifyErrMsg : GoVerifyError → String
  | .goBinaryNotFound => "go binary not found in PATH"
  | .unexpectedOutput out => "unexpected output from go version: " ++ out
  | .versionMismatch f e => "Go version mismatch: found " ++ f ++ ", expected " ++ e

/-- Embedding of verifyGoVersion, without the advisory drift check: parse
the output of the go version command, guard the access to the third field
by the length check, strip a leading go marker, and compare with the pin. -/
def verifyGoVersion (goOut : Option String) : Except GoVerifyError Unit :=
  match goOut with
  | none => .error .goBinaryNotFound
  | some out =>
    match (fieldsChars out.data)[2]? with
    | none => .error (.unexpectedOutput out)
    | some f2 =>
      let current := String.mk (dropPref "go".data f2)
      if current = TargetGoVersion then .ok ()
      else .error (.versionMismatch current TargetGoVersion)

/-- Outcome of the best-effort drift check: it only ever produces an
informational notice, never an error. -/
inductive DriftNotice where
  | offline
  | unparseable
  | newerAvailable (latest : String)
  | upToDate
deriving DecidableEq

/-- Embedding of checkGoVersionLatest: the remote body is split into
lines, the first line is trimmed, a leading go marker is stripped, and the
result is compared with the pin. Every failure path degrades to a notice. -/
def checkGoVersionLatest (driftOut : Option String) : DriftNotice :=
  match driftOut with
  | none => .offline
  | some out =>
    let lines := splitLines (trimChars out.data)
    if lines.length = 0 then .unparseable
    else
      let latest := String.mk (dropPref "go".data (trimChars (lines.headD [])))
      if latest = "" then .unparseable
      else if latest = TargetGoVersion then .upToDate
      else .newerAvailable latest

/-- Embedding of verifyGoVersion including the advisory drift check that
runs after a successful version comparison: the first component is the
verification result, the second the drift notice when one was emitted. -/
def verifyGoVersionFull (goOut driftOut : Option String) :
    Except GoVerifyError Unit × Option DriftNotice :=
  match verifyGoVersion goOut with
  | .ok _ => (.ok (), some (checkGoVersionLatest driftOut))
  | .error e => (.error e, none)

/-- Environment of the Go self-healing task: the current output of the go
version command and, when the installer is run, the environment it leaves
behind (none when the installer itself fails). -/
inductive GoEnv where
  | mk (goOut : Option String) (afterInstall : Option GoEnv)

/-- Output of the go version command in this environment. -/
def GoEnv.goOut : GoEnv → Option String
  | .mk o _ => o

/-- Environment produced by running installGoVersion, when it succeeds. -/
def GoEnv.afterInstall : GoEnv → Option GoEnv
  | .mk _ a => a

/-- Result of one run of a self-healing task over the Go environment:
the returned error value, whether the installer was run, and the
terminal environment. -/
structure GoEnsureOut where
  res : Except String Unit
  install : Bool
  env : GoEnv

/-- Embedding of the Deps task of the Go namespace: verify, return
immediately on success, otherwise install and re-verify. -/
def goDeps (e : GoEnv) : GoEnsureOut :=
  match verifyGoVersion e.goOut with
  | .ok _ => ⟨.ok (), false, e⟩
  | .error _ =>
    match e.afterInstall with
    | none => ⟨.error ("failed to install Go " ++ TargetGoVersion), true, e⟩
    | some e2 =>
      match verifyGoVersion e2.goOut with
      | .ok _ => ⟨.ok (), true, e2⟩
      | .error err =>
        ⟨.error ("Go installation did not verify successfully: " ++ goVerifyErrMsg err), true, e2⟩

/-! ## Git verification (magefile Git namespace) -/

/-- Embedding of the Verify task of the Git namespace: the environment
supplies the output of the git version command, none when git is absent. -/
def gitVerify (gitOut : Option String) : Except String Unit :=
  match gitOut with
  | none => .error "Git not found in PATH"
  | some _ => .ok ()

/-- Embedding of the Config task of the Git namespace: a missing global
user identity only produces advice on the console, never an error. -/
def gitConfig (_userName _userEmail : String) : Except String Unit :=
  .ok ()

/-- Embedding of the Deps task of the Git namespace: verify then check
the global configuration. -/
def gitDeps (gitOut : Option String) (userName userEmail : String) : Except String Unit :=
  match gitVerify gitOut with
  | .error e => .error e
  | .ok _ => gitConfig userName userEmail

/-! ## Mermaid CLI verification and self-healing (magefile Mermaid namespace)

The environment supplies which apt packages are installed, whether the
privileged apt steps succeed, the output of the mmdc version command, and
the state the npm installer leaves the mmdc command in.
-/

/-- Pinned Mermaid CLI version for reproducible builds. -/
def TargetMermaidVersion : String := "10.9.0"

/-- Typed outcomes of the Verify task of the Mermaid namespace. -/
inductive MermaidVerifyError where
  | cliNotFound
  | versionMismatch (found expected : String)
deriving DecidableEq

/-- Rendering of the Mermaid verification errors to their message text. -/
def mermaidVerifyErrMsg : MermaidVerifyError → String
  | .cliNotFound =>
      "Mermaid CLI not found in PATH. Install it with: npm install -g @mermaid-js/mermaid-cli@"
        ++ TargetMermaidVersion
  | .versionMismatch f e => "Mermaid CLI version mismatch: found " ++ f ++ ", expected " ++ e

/-- Embedding of the Verify task of the Mermaid namespace: trim the output
of the mmdc version command and test whether it contains the pinned
version as a substring. -/
def mermaidVerify (mmdcOut : Option String) : Except MermaidVerifyError Unit :=
  match mmdcOut with
  | none => .error .cliNotFound
  | some out =>
    let version := strTrim out
    if strContains version TargetMermaidVersion then .ok ()
    else .error (.versionMismatch version TargetMermaidVersion)

/-- The fixed list of system libraries required for headless Chromium
rendering, exactly as listed in VerifySystemLibs. -/
def mermaidLibs : List String :=
  ["libatk1.0-0t64", "libatk-bridge2.0-0t64", "libcups2t64", "libdrm2", "libxkbcommon0",
   "libxdamage1", "libxfixes3", "libxrandr2", "libasound2t64", "libatspi2.0-0t64",
   "libpangocairo-1.0-0", "libpango-1.0-0", "libcairo2", "libgbm1", "libnss3",
   "libxshmfence1", "libxcomposite1", "libxext6", "libx11-6", "libx11-xcb1",
   "libxcb1", "libxrender1", "fonts-liberation", "libgtk-3-0t64"]

/-- Environment of the Mermaid self-healing task. -/
structure MEnv where
  pkgOk : String → Bool
  aptUpdateOk : Bool
  aptInstallOk : Bool
  mmdcOut : Option String
  npmOk : Bool
  mmdcAfterNpm : Option String

/-- The sublist of required libraries whose package check fails, exactly
the missing list VerifySystemLibs collects. -/
def missingLibs (e : MEnv) : List String :=
  mermaidLibs.filter (fun p => !(e.pkgOk p))

/-- Result of the system-library step: its error value, whether the
privileged batch installation ran, and the resulting environment. -/
structure LibsOut where
  res : Except String Unit
  install : Bool
  env : MEnv

/-- Embedding of VerifySystemLibs: succeed when nothing is missing,
otherwise run one batched privileged installation of exactly the missing
subset, trusting its success without a per-package re-check. -/
def verifySystemLibs (e : MEnv) : LibsOut :=
  if missingLibs e = [] then ⟨.ok (), false, e⟩
  else if !e.aptUpdateOk then ⟨.error "failed to update package lists", false, e⟩
  else if !e.aptInstallOk then ⟨.error "failed to install required libraries", true, e⟩
  else ⟨.ok (), true, { e with pkgOk := fun p => e.pkgOk p || decide (p ∈ missingLibs e) }⟩

/-- Result of one run of the Mermaid self-healing task: its error value,
whether system libraries were installed, whether the CLI installer ran,
and the terminal environment. -/
structure MermaidEnsureOut where
  res : Except String Unit
  libInstall : Bool
  cliInstall : Bool
  env : MEnv

/-- Embedding of the Deps task of the Mermaid namespace: first verify and
self-heal the system libraries, then verify the CLI, returning on
success, otherwise install via npm and re-verify. -/
def mermaidDeps (e : MEnv) : MermaidEnsureOut :=
  let lo := verifySystemLibs e
  match lo.res with
  | .error m => ⟨.error ("system library verification failed: " ++ m), lo.install, false, lo.env⟩
  | .ok _ =>
    match mermaidVerify lo.env.mmdcOut with
    | .ok _ => ⟨.ok (), lo.install, false, lo.env⟩
    | .error _ =>
      if lo.env.npmOk then
        let e2 := { lo.env with mmdcOut := lo.env.mmdcAfterNpm }
        match mermaidVerify e2.mmdcOut with
        | .ok _ => ⟨.ok (), lo.install, true, e2⟩
        | .error err =>
          ⟨.error ("Mermaid CLI installation did not verify successfully: "
              ++ mermaidVerifyErrMsg err), lo.install, true, e2⟩
      else ⟨.error ("failed to install Mermaid CLI " ++ TargetMermaidVersion), lo.install, true, lo.env⟩

/-! ## Orchestrator (magefile Deps namespace)

The All task iterates over a declared, ordered list of named steps,
stopping at the first failure and wrapping its cause with the step name.
The loop is embedded over the list of step names paired with the outcome
each step would produce when run, together with the list of steps the
loop actually starts.
-/

/-- Embedding of the step loop of the All task of the Deps namespace: run
the steps in order, and at the first failure return an error naming the
failed step and wrapping its cause. The second component collects the
names of the steps the loop actually started. -/
def runSteps : List (String × Except String Unit) → Except String Unit × List String
  | [] => (.ok (), [])
  | (n, r) :: rest =>
    match r with
    | .error msg => (.error (n ++ " failed: " ++ msg), [n])
    | .ok _ =>
      let out := runSteps rest
      (out.1, n :: out.2)

/-- The declared step list of the All task, in its fixed order, each step
paired with the outcome its ensure call produces in the given
environments. -/
def depsAllSteps (g : GoEnv) (m : MEnv) (gitOut : Option String)
    (userName userEmail : String) : List (String × Except String Unit) :=
  [("Go toolchain", (goDeps g).res),
   ("Mermaid CLI", (mermaidDeps m).res),
   ("Git configuration", gitDeps gitOut userName userEmail)]

/-- Embedding of the All task of the Deps namespace over its declared step
list. -/
def depsAll (g : GoEnv) (m : MEnv) (gitOut : Option String)
    (userName userEmail : String) : Except String Unit × List String :=
  runSteps (depsAllSteps g m gitOut userName userEmail)

/-! ## Credential resolution (verifyGitHubAppKey)

The resolver looks for the GitHub App private key with a strict source
precedence: the environment variable override, then the Docker secret
mount, then a local glob under the user configuration directory. The
environment supplies the value of the override variable (empty when
unset, matching os.Getenv), the stat outcome for every path, the home
directory and the names of the files present in the search directory.
-/

/-- The well-known Docker secret mount path. -/
def secretMountPath : String := "/run/secrets/wiki_diagram_app_key"

/-- The fixed leading part of the key glob pattern. -/
def keyNameStart : String := "wiki-diagram-publisher"

/-- Environment of the credential resolver. -/
structure KeyEnv where
  envKeyPath : String
  statOk : String → Bool
  homeDir : String
  dirFiles : List String

/-- The fixed search directory under the user configuration directory. -/
def keySearchDir (e : KeyEnv) : String :=
  e.homeDir ++ "/.config/github-apps"

/-- Does a file name match the glob pattern wiki-diagram-publisher*.pem?
A name matches exactly when it starts with the fixed leading part and the
remainder ends in the pem extension. -/
def matchesKeyPattern (name : String) : Bool :=
  charsHasPref name.data keyNameStart.data
    && charsEndsWith (name.data.drop keyNameStart.data.length) ".pem".data

/-- The glob match names in the order filepath.Glob returns them: the
matching file names sorted lexicographically. -/
def keyGlobNames (dirFiles : List String) : List String :=
  sortKeys (dirFiles.filter matchesKeyPattern)

/-- Successful resolution outcomes, tagged with the source that won. -/
inductive KeyFound where
  | envVar (path : String)
  | dockerSecret (path : String)
  | localKey (path : String)
deriving DecidableEq

/-- Typed outcomes of the failing paths of verifyGitHubAppKey. -/
inductive KeyError where
  | envPathMissing (path : String)
  | notFound
  | unreadable (path : String)
deriving DecidableEq

/-- The not-found message, naming all three attempted sources exactly as
the source text does. -/
def keyNotFoundMsg : String :=
  "no GitHub App key found — expected one of:\n  - env var: WIKI_APP_PRIVATE_KEY_PATH\n  - Docker secret: "
    ++ secretMountPath
    ++ "\n  - local file: ~/.config/github-apps/wiki-diagram-publisher*.pem"

/-- Rendering of the resolver errors to their message text. -/
def KeyError.message : KeyError → String
  | .envPathMissing p => "GitHub App key missing at " ++ p
  | .notFound => keyNotFoundMsg
  | .unreadable _ => "GitHub App key found but unreadable"

/-- The local glob stage of the resolver: glob the search directory, fail
with the not-found error naming all sources when nothing matches,
otherwise select the last match and require it to be stat-able. -/
def checkLocalGlob (e : KeyEnv) : Except KeyError KeyFound :=
  match (keyGlobNames e.dirFiles).getLast? with
  | none => .error .notFound
  | some n =>
    let latestKey := keySearchDir e ++ "/" ++ n
    if e.statOk latestKey then .ok (.localKey latestKey)
    else .error (.unreadable latestKey)

/-- Embedding of verifyGitHubAppKey: environment override first, then the
Docker secret mount, then the local glob. -/
def verifyGitHubAppKey (e : KeyEnv) : Except KeyError KeyFound :=
  if e.envKeyPath ≠ "" then
    if e.statOk e.envKeyPath then .ok (.envVar e.envKeyPath)
    else .error (.envPathMissing e.envKeyPath)
  else if e.statOk secretMountPath then .ok (.dockerSecret secretMountPath)
  else checkLocalGlob e

/-! ## Secret provisioning (Secrets task of the Docker namespace)

The environment supplies the stat outcome for the swarm mount, the files
in the local search directory, whether this host is a controlling swarm
node, and the outcome of the secret creation command (none when creation
succeeds, otherwise its error message).
-/

/-- Environment of the secret provisioning task. -/
structure DockerEnv where
  swarmMountOk : Bool
  homeDir : String
  dirFiles : List String
  swarmControl : Bool
  createErr : Option String

/-- The local search directory used by the Secrets task. -/
def dockerSearchDir (e : DockerEnv) : String :=
  e.homeDir ++ "/.config/github-apps"

/-- Embedding of the Secrets task of the Docker namespace: a present swarm
mount is success; otherwise a local key must exist; a docker secret is
created only on a controlling node, where a creation failure whose message
contains the already-exists marker is treated as success and every other
creation failure is fatal, wrapping the underlying cause. -/
def dockerSecrets (e : DockerEnv) : Except String Unit :=
  if e.swarmMountOk then .ok ()
  else
    match (keyGlobNames e.dirFiles).getLast? with
    | none =>
      .error ("no local GitHub App key found in " ++ dockerSearchDir e
        ++ " — please download from GitHub App settings")
    | some _ =>
      if e.swarmControl then
        match e.createErr with
        | none => .ok ()
        | some msg =>
          if strContains msg "already exists" then .ok ()
          else .error ("failed to create Docker secret: " ++ msg)
      else .ok ()

/-! ## Helper lemmas about the self-healing tasks -/

theorem goDeps_ok_verify {e : GoEnv} (h : (goDeps e).res = .ok ()) :
    verifyGoVersion ((goDeps e).env).goOut = .ok () := by
  cases hv : verifyGoVersion e.goOut with
  | ok u => cases u; simp [goDeps, hv]
  | error err =>
    cases ha : e.afterInstall with
    | none => simp [goDeps, hv, ha] at h
    | some e2 =>
      cases hv2 : verifyGoVersion e2.goOut with
      | ok u => cases u; simp [goDeps, hv, ha, hv2]
      | error err2 => simp [goDeps, hv, ha, hv2] at h

theorem missingLibs_after_apt (e : MEnv) :
    missingLibs { e with pkgOk := fun p => e.pkgOk p || decide (p ∈ missingLibs e) } = [] := by
  rw [missingLibs, List.filter_eq_nil_iff]
  intro p hp
  cases hpk : e.pkgOk p with
  | true => simp [hpk]
  | false =>
    have hmem : p ∈ missingLibs e := List.mem_filter.mpr ⟨hp, by simp [hpk]⟩
    simp [hpk, hmem]

theorem verifySystemLibs_mmdcOut (e : MEnv) :
    (verifySystemLibs e).env.mmdcOut = e.mmdcOut := by
  unfold verifySystemLibs
  split_ifs <;> rfl

theorem verifySystemLibs_ok {e : MEnv} (h : (verifySystemLibs e).res = .ok ()) :
    missingLibs (verifySystemLibs e).env = [] := by
  by_cases h1 : missingLibs e = []
  · simp [verifySystemLibs, h1]
  · cases hu : e.aptUpdateOk with
    | false => simp [verifySystemLibs, h1, hu] at h
    | true =>
      cases hi : e.aptInstallOk with
      | false => simp [verifySystemLibs, h1, hu, hi] at h
      | true =>
        simp only [verifySystemLibs, if_neg h1, hu, hi, Bool.not_true, Bool.false_eq_true,
          if_false]
        exact missingLibs_after_apt e

theorem verifySystemLibs_nothing_missing {e : MEnv} (h : missingLibs e = []) :
    verifySystemLibs e = ⟨.ok (), false, e⟩ := by
  simp [verifySystemLibs, h]

theorem mermaidDeps_ok_state {m : MEnv} (h : (mermaidDeps m).res = .ok ()) :
    missingLibs (mermaidDeps m).env = []
      ∧ mermaidVerify ((mermaidDeps m).env).mmdcOut = .ok () := by
  cases hres : (verifySystemLibs m).res with
  | error msg => simp [mermaidDeps, hres] at h
  | ok u =>
    cases u
    cases hv : mermaidVerify (verifySystemLibs m).env.mmdcOut with
    | ok u2 =>
      cases u2
      simp only [mermaidDeps, hres, hv]
      exact ⟨verifySystemLibs_ok hres, trivial⟩
    | error er =>
      cases hnpm : (verifySystemLibs m).env.npmOk with
      | false => simp [mermaidDeps, hres, hv, hnpm] at h
      | true =>
        cases hv2 :
            mermaidVerify ((verifySystemLibs m).env.mmdcAfterNpm) with
        | error er2 => simp [mermaidDeps, hres, hv, hnpm, hv2] at h
        | ok u3 =>
          cases u3
          simp only [mermaidDeps, hres, hv, hnpm, if_true, hv2]
          constructor
          · exact verifySystemLibs_ok hres
          · trivial

theorem goDeps_of_healthy {e : GoEnv} (h : verifyGoVersion e.goOut = .ok ()) :
    goDeps e = ⟨.ok (), false, e⟩ := by
  simp [goDeps, h]

theorem mermaidDeps_of_healthy {m : MEnv} (h1 : missingLibs m = [])
    (h2 : mermaidVerify m.mmdcOut = .ok ()) :
    mermaidDeps m = ⟨.ok (), false, false, m⟩ := by
  have hs := verifySystemLibs_nothing_missing h1
  simp [mermaidDeps, hs, h2]

/-! ## Claim theorems -/

/-- Claim C3 (amended): the Go ensure task first verifies and returns
success immediately with no installation when verification passes, and
repeating it after a success performs no installation; the Mermaid ensure
task runs the system-library self-healing step before verifying the CLI,
so when the CLI verification passes it performs no CLI installation (the
library step may still install packages), and repeating it after a
success performs no installation of either kind and leaves the
environment unchanged. -/
theorem c3_ensure_idempotent :
    (∀ e : GoEnv, verifyGoVersion e.goOut = .ok () → goDeps e = ⟨.ok (), false, e⟩)
      ∧ (∀ e : GoEnv, (goDeps e).res = .ok () →
          goDeps ((goDeps e).env) = ⟨.ok (), false, (goDeps e).env⟩)
      ∧ (∀ m : MEnv, missingLibs m = [] → mermaidVerify m.mmdcOut = .ok () →
          mermaidDeps m = ⟨.ok (), false, false, m⟩)
      ∧ (∀ m : MEnv, (verifySystemLibs m).res = .ok () → mermaidVerify m.mmdcOut = .ok () →
          (mermaidDeps m).res = .ok () ∧ (mermaidDeps m).cliInstall = false)
      ∧ (∀ m : MEnv, (mermaidDeps m).res = .ok () →
          mermaidDeps ((mermaidDeps m).env) = ⟨.ok (), false, false, (mermaidDeps m).env⟩) := by
  refine ⟨?_, ?_, ?_, ?_, ?_⟩
  · intro e h
    exact goDeps_of_healthy h
  · intro e h
    exact goDeps_of_healthy (goDeps_ok_verify h)
  · intro m h1 h2
    exact mermaidDeps_of_healthy h1 h2
  · intro m hs hv
    have hv2 : mermaidVerify ((verifySystemLibs m).env.mmdcOut) = .ok () := by
      rw [verifySystemLibs_mmdcOut]; exact hv
    constructor
    · simp [mermaidDeps, hs, hv2]
    · simp [mermaidDeps, hs, hv2]
  · intro m h
    have st := mermaidDeps_ok_state h
    exact mermaidDeps_of_healthy st.1 st.2

/-- Mermaid environment in which the CLI already verifies at the pinned
version but one required system library is missing. -/
def mEx1 : MEnv :=
  { pkgOk := fun p => !(p == "libgbm1"), aptUpdateOk := true, aptInstallOk := true,
    mmdcOut := some "10.9.0", npmOk := true, mmdcAfterNpm := some "10.9.0" }

/-- Claim C3 counterexample: in mEx1 the Mermaid CLI verification passes,
yet the ensure task still performs an installation (the batched system
library install), refuting the claim that a passing verification makes
ensure return without performing any installation. -/
theorem c3_counterexample :
    mermaidVerify mEx1.mmdcOut = .ok ()
      ∧ (mermaidDeps mEx1).libInstall = true
      ∧ (mermaidDeps mEx1).res = .ok () := by
  refine ⟨by decide, by decide, by decide⟩

/-- Go environment whose toolchain already reports the pinned version. -/
def gEx1 : GoEnv :=
  .mk (some "go version go1.25.3 linux/amd64") none

/-- Claim C3 witness: concrete instances of the amended idempotence
statements. -/
theorem c3_ensure_idempotent_witness :
    goDeps gEx1 = ⟨.ok (), false, gEx1⟩
      ∧ mermaidDeps ((mermaidDeps mEx1).env)
          = ⟨.ok (), false, false, (mermaidDeps mEx1).env⟩ :=
  ⟨c3_ensure_idempotent.1 gEx1 (by decide),
   c3_ensure_idempotent.2.2.2.2 mEx1 (by decide)⟩

/-- Claim C1: credential resolution follows the strict source precedence:
a set override variable naming an existing file wins outright; with the
variable unset an existing secret mount wins over local files; only with
both absent does resolution fall through to the local glob stage. -/
theorem c1_credential_precedence (e : KeyEnv) :
    (e.envKeyPath ≠ "" → e.statOk e.envKeyPath = true →
        verifyGitHubAppKey e = .ok (.envVar e.envKeyPath))
      ∧ (e.envKeyPath = "" → e.statOk secretMountPath = true →
          verifyGitHubAppKey e = .ok (.dockerSecret secretMountPath))
      ∧ (e.envKeyPath = "" → e.statOk secretMountPath = false →
          verifyGitHubAppKey e = checkLocalGlob e) := by
  refine ⟨?_, ?_, ?_⟩
  · intro h1 h2
    unfold verifyGitHubAppKey
    rw [if_pos h1, if_pos h2]
  · intro h1 h2
    unfold verifyGitHubAppKey
    rw [if_neg (by simp [h1]), if_pos h2]
  · intro h1 h2
    unfold verifyGitHubAppKey
    rw [if_neg (by simp [h1]), if_neg (by simp [h2])]

/-- Environment in which all three credential sources are present at
once; the override must win. -/
def kEx1 : KeyEnv :=
  { envKeyPath := "/etc/override-key.pem", statOk := fun _ => true,
    homeDir := "/home/u",
    dirFiles := ["wiki-diagram-publisher.2024-01-01.private-key.pem"] }

/-- Claim C1 witness: with every source present the resolver returns the
override path. -/
theorem c1_credential_precedence_witness :
    verifyGitHubAppKey kEx1 = .ok (.envVar "/etc/override-key.pem") :=
  (c1_credential_precedence kEx1).1 (by decide) (by decide)

/-- Claim C4: a set override variable whose path fails the stat check
makes resolution fail immediately with the missing-path error, for every
state of the secret mount and of the local directory. -/
theorem c4_broken_override (e : KeyEnv) (h1 : e.envKeyPath ≠ "")
    (h2 : e.statOk e.envKeyPath = false) :
    verifyGitHubAppKey e = .error (.envPathMissing e.envKeyPath) := by
  unfold verifyGitHubAppKey
  rw [if_pos h1, if_neg (by simp [h2])]

/-- Environment with a broken override while the secret mount and a local
match both exist; resolution must still fail on the override. -/
def kEx2 : KeyEnv :=
  { envKeyPath := "/etc/missing-key.pem",
    statOk := fun p => p != "/etc/missing-key.pem", homeDir := "/home/u",
    dirFiles := ["wiki-diagram-publisher.pem"] }

/-- Claim C4 witness: the broken override fails even though the mount and
a local match exist. -/
theorem c4_broken_override_witness :
    verifyGitHubAppKey kEx2 = .error (.envPathMissing "/etc/missing-key.pem") :=
  c4_broken_override kEx2 (by decide) (by decide)

/-- Claim C8: when the local glob stage runs and yields matches, the
selected match is the lexicographically last one: it bounds every match
from above in the lexicographic order, and the resolver resolves to it. -/
theorem c8_lexicographically_last (e : KeyEnv) (h1 : e.envKeyPath = "")
    (h2 : e.statOk secretMountPath = false) {sel : String}
    (h3 : (keyGlobNames e.dirFiles).getLast? = some sel) :
    (∀ m ∈ keyGlobNames e.dirFiles, strLe m sel = true)
      ∧ verifyGitHubAppKey e
          = (if e.statOk (keySearchDir e ++ "/" ++ sel)
             then .ok (.localKey (keySearchDir e ++ "/" ++ sel))
             else .error (.unreadable (keySearchDir e ++ "/" ++ sel))) := by
  have hne : keyGlobNames e.dirFiles ≠ [] := by
    intro h0
    rw [h0] at h3
    simp at h3
  have hlast : (keyGlobNames e.dirFiles).getLast hne = sel := by
    rw [List.getLast?_eq_getLast _ hne] at h3
    exact Option.some.inj h3
  constructor
  · intro m hm
    have hp : (keyGlobNames e.dirFiles).Pairwise (fun a b => strLe a b = true) :=
      pairwise_sortKeys _
    rw [← hlast]
    exact pairwise_le_getLast hp hm hne
  · have hfall : verifyGitHubAppKey e = checkLocalGlob e := by
      unfold verifyGitHubAppKey
      rw [if_neg (by simp [h1]), if_neg (by simp [h2])]
    rw [hfall]
    unfold checkLocalGlob
    rw [h3]

/-- Environment with no override and no mount, and two date-suffixed local
matches; the glob stage must pick the later date. -/
def kEx3 : KeyEnv :=
  { envKeyPath := "", statOk := fun p => p != secretMountPath,
    homeDir := "/home/u",
    dirFiles := ["wiki-diagram-publisher.2024-01-01.pem",
                 "wiki-diagram-publisher.2024-06-01.pem"] }

/-- Claim C8 witness: with two date-suffixed matches the resolver selects
the lexicographically last one. -/
theorem c8_lexicographically_last_witness :
    verifyGitHubAppKey kEx3
      = .ok (.localKey "/home/u/.config/github-apps/wiki-diagram-publisher.2024-06-01.pem") :=
  ((@c8_lexicographically_last kEx3 (by decide) (by decide)
      "wiki-diagram-publisher.2024-06-01.pem" (by decide)).2).trans (by decide)

/-- Claim C9: the glob stage only resolves to a stat-able selected match;
an existing-but-unreadable selected match is the distinct unreadable
error, never the not-found error, and zero matches produce the not-found
error whose message names all three attempted sources. -/
theorem c9_unreadable_vs_notfound (e : KeyEnv) (h1 : e.envKeyPath = "")
    (h2 : e.statOk secretMountPath = false) :
    (keyGlobNames e.dirFiles = [] →
        verifyGitHubAppKey e = .error .notFound
          ∧ strContains (KeyError.message .notFound) "WIKI_APP_PRIVATE_KEY_PATH" = true
          ∧ strContains (KeyError.message .notFound) secretMountPath = true
          ∧ strContains (KeyError.message .notFound) "wiki-diagram-publisher*.pem" = true)
      ∧ (∀ sel, (keyGlobNames e.dirFiles).getLast? = some sel →
          e.statOk (keySearchDir e ++ "/" ++ sel) = false →
          verifyGitHubAppKey e = .error (.unreadable (keySearchDir e ++ "/" ++ sel))
            ∧ ∀ p, KeyError.unreadable p ≠ KeyError.notFound)
      ∧ (∀ f, verifyGitHubAppKey e = .ok f → ∃ p, f = .localKey p ∧ e.statOk p = true) := by
  have hfall : verifyGitHubAppKey e = checkLocalGlob e := by
    unfold verifyGitHubAppKey
    rw [if_neg (by simp [h1]), if_neg (by simp [h2])]
  refine ⟨?_, ?_, ?_⟩
  · intro h0
    refine ⟨?_, by decide, by decide, by decide⟩
    rw [hfall]
    unfold checkLocalGlob
    rw [h0]
    rfl
  · intro sel hsel hstat
    refine ⟨?_, ?_⟩
    · rw [hfall]
      unfold checkLocalGlob
      simp only [hsel]
      rw [if_neg (by simp [hstat])]
    · intro p hc
      cases hc
  · intro f hf
    rw [hfall] at hf
    unfold checkLocalGlob at hf
    cases hsel : (keyGlobNames e.dirFiles).getLast? with
    | none => simp [hsel] at hf
    | some n =>
      simp only [hsel] at hf
      by_cases hst : e.statOk (keySearchDir e ++ "/" ++ n) = true
      · rw [if_pos hst] at hf
        exact ⟨keySearchDir e ++ "/" ++ n, (Except.ok.inj hf).symm, hst⟩
      · rw [if_neg hst] at hf
        cases hf

/-- Environment with one local match that exists in the directory listing
but fails the stat check. -/
def kEx4 : KeyEnv :=
  { envKeyPath := "", statOk := fun _ => false, homeDir := "/home/u",
    dirFiles := ["wiki-diagram-publisher.pem"] }

/-- Claim C9 witness: the unreadable selected match yields the distinct
unreadable error. -/
theorem c9_unreadable_vs_notfound_witness :
    verifyGitHubAppKey kEx4
      = .error (.unreadable "/home/u/.config/github-apps/wiki-diagram-publisher.pem") :=
  (((c9_unreadable_vs_notfound kEx4 (by decide) (by decide)).2.1
    "wiki-diagram-publisher.pem" (by decide) (by decide)).1).trans (by decide)

theorem strContains_append_left3 (a b c : String) :
    strContains (a ++ b ++ c) a = true := by
  simp only [strContains, str_data_append, List.append_assoc]
  exact charsContains_append_left a.data (b.data ++ c.data)

/-- Claim C2 (amended): for the Go toolchain the parsed version (the
third output field with a leading go marker stripped) must equal the pin
exactly, every other parsed version failing with the mismatch error
carrying the found version and the pin; for the Mermaid CLI verification
succeeds exactly when the trimmed reported version output contains the
pin as a substring, and otherwise fails with a mismatch error carrying
the reported output and the pin. -/
theorem c2_version_pin :
    (∀ out f2, (fieldsChars out.data)[2]? = some f2 →
        (String.mk (dropPref "go".data f2) = TargetGoVersion →
            verifyGoVersion (some out) = .ok ())
          ∧ (String.mk (dropPref "go".data f2) ≠ TargetGoVersion →
              verifyGoVersion (some out)
                = .error (.versionMismatch (String.mk (dropPref "go".data f2)) TargetGoVersion)))
      ∧ (∀ out,
          (strContains (strTrim out) TargetMermaidVersion = true →
              mermaidVerify (some out) = .ok ())
            ∧ (strContains (strTrim out) TargetMermaidVersion = false →
                mermaidVerify (some out)
                  = .error (.versionMismatch (strTrim out) TargetMermaidVersion))) := by
  constructor
  · intro out f2 h2
    constructor
    · intro he
      simp [verifyGoVersion, h2, he]
    · intro hne
      simp [verifyGoVersion, h2, hne]
  · intro out
    constructor
    · intro hc
      simp [mermaidVerify, hc]
    · intro hc
      simp [mermaidVerify, hc]

/-- Claim C2 counterexample: a reported Mermaid version different from
the pin on which verification nevertheless succeeds, because the source
tests substring containment rather than equality. -/
theorem c2_counterexample :
    mermaidVerify (some "10.9.05") = .ok ()
      ∧ strTrim "10.9.05" ≠ TargetMermaidVersion :=
  ⟨by decide, by decide⟩

/-- Claim C2 witness: exact-pin outputs verify for both tools. -/
theorem c2_version_pin_witness :
    verifyGoVersion (some "go version go1.25.3 linux/amd64") = .ok ()
      ∧ mermaidVerify (some "10.9.0") = .ok () :=
  ⟨(c2_version_pin.1 "go version go1.25.3 linux/amd64" "go1.25.3".data (by decide)).1 (by decide),
   (c2_version_pin.2 "10.9.0").1 (by decide)⟩

theorem runSteps_fail (pre : List (String × Except String Unit)) (n msg : String)
    (post : List (String × Except String Unit))
    (hpre : ∀ s ∈ pre, s.2 = .ok ()) :
    runSteps (pre ++ (n, .error msg) :: post)
      = (.error (n ++ " failed: " ++ msg), pre.map Prod.fst ++ [n]) := by
  induction pre with
  | nil => simp [runSteps]
  | cons s rest ih =>
    obtain ⟨sn, sr⟩ := s
    have hs : sr = .ok () := hpre (sn, sr) (by simp)
    subst hs
    have hrest : ∀ t ∈ rest, t.2 = .ok () := fun t ht => hpre t (by simp [ht])
    simp [runSteps, ih hrest]

/-- Claim C5: when the steps before a failing step all succeed, the run
of the orchestrator step loop returns an error that names the failing
step and wraps its cause, starts exactly the steps up to and including
the failing one, and its outcome does not depend on the steps after the
failure. -/
theorem c5_fail_fast (pre : List (String × Except String Unit)) (n msg : String)
    (post post2 : List (String × Except String Unit))
    (hpre : ∀ s ∈ pre, s.2 = .ok ()) :
    runSteps (pre ++ (n, .error msg) :: post)
        = (.error (n ++ " failed: " ++ msg), pre.map Prod.fst ++ [n])
      ∧ strContains (n ++ " failed: " ++ msg) n = true
      ∧ strContains (n ++ " failed: " ++ msg) msg = true
      ∧ runSteps (pre ++ (n, .error msg) :: post)
          = runSteps (pre ++ (n, .error msg) :: post2) := by
  refine ⟨runSteps_fail pre n msg post hpre, ?_, ?_, ?_⟩
  · exact strContains_append_left3 n " failed: " msg
  · exact strContains_append_right (n ++ " failed: ") msg
  · rw [runSteps_fail pre n msg post hpre, runSteps_fail pre n msg post2 hpre]

/-- Claim C5 witness: with the declared step names of the All task, a
failure of the second step is attributed to it and the third step is not
started. -/
theorem c5_fail_fast_witness :
    runSteps [("Go toolchain", .ok ()), ("Mermaid CLI", .error "npm missing"),
        ("Git configuration", .ok ())]
      = (.error "Mermaid CLI failed: npm missing", ["Go toolchain", "Mermaid CLI"]) :=
  (c5_fail_fast [("Go toolchain", .ok ())] "Mermaid CLI" "npm missing"
      [("Git configuration", .ok ())] [] (by decide)).1.trans (by decide)

/-- Claim C6: on a controlling swarm node with a local key present, a
secret-creation failure whose message contains the already-exists marker
is treated as success, and every other creation failure is returned as a
fatal error wrapping the underlying cause. -/
theorem c6_already_exists (e : DockerEnv) (n : String) (h1 : e.swarmMountOk = false)
    (h2 : (keyGlobNames e.dirFiles).getLast? = some n) (h3 : e.swarmControl = true) :
    (∀ m, e.createErr = some m → strContains m "already exists" = true →
        dockerSecrets e = .ok ())
      ∧ (∀ m, e.createErr = some m → strContains m "already exists" = false →
          dockerSecrets e = .error ("failed to create Docker secret: " ++ m)
            ∧ strContains ("failed to create Docker secret: " ++ m) m = true) := by
  constructor
  · intro m hm hc
    unfold dockerSecrets
    rw [if_neg (by simp [h1])]
    simp only [h2, hm]
    rw [if_pos h3, if_pos hc]
  · intro m hm hc
    constructor
    · unfold dockerSecrets
      rw [if_neg (by simp [h1])]
      simp only [h2, hm]
      rw [if_pos h3, if_neg (by simp [hc])]
    · exact strContains_append_right "failed to create Docker secret: " m

/-- Docker environment on a controlling node whose creation attempt
reports that the secret already exists. -/
def dEx1 : DockerEnv :=
  { swarmMountOk := false, homeDir := "/home/u",
    dirFiles := ["wiki-diagram-publisher.pem"], swarmControl := true,
    createErr := some "Error response from daemon: secret wiki_diagram_app_key already exists" }

/-- Claim C6 witness: the already-exists creation failure is success. -/
theorem c6_already_exists_witness : dockerSecrets dEx1 = .ok () :=
  (c6_already_exists dEx1 "wiki-diagram-publisher.pem" (by decide) (by decide)
      (by decide)).1
    "Error response from daemon: secret wiki_diagram_app_key already exists" rfl (by decide)

/-- Claim C7: whenever the local version comparison succeeds, the
verification result is success for every drift outcome, and a drift
fetch that fails for lack of network degrades to the offline notice
while verification still succeeds. -/
theorem c7_drift_never_blocks (goOut : Option String)
    (h : verifyGoVersion goOut = .ok ()) :
    (∀ driftOut, (verifyGoVersionFull goOut driftOut).1 = .ok ())
      ∧ verifyGoVersionFull goOut none = (.ok (), some DriftNotice.offline) := by
  constructor
  · intro driftOut
    simp [verifyGoVersionFull, h]
  · simp [verifyGoVersionFull, h, checkGoVersionLatest]

/-- Claim C7 witness: a matching local version with an unreachable remote
endpoint still verifies, with the offline notice. -/
theorem c7_drift_never_blocks_witness :
    verifyGoVersionFull (some "go version go1.25.3 linux/amd64") none
      = (.ok (), some DriftNotice.offline) :=
  (c7_drift_never_blocks (some "go version go1.25.3 linux/amd64") (by decide)).2

/-- Claim C10: for every external output that splits into fewer than
three whitespace-separated fields, the Go verification returns the typed
unexpected-output error; the access of the third field is guarded, so the
verification is total over all outputs. -/
theorem c10_guarded_fields (out : String)
    (h : (fieldsChars out.data).length < 3) :
    verifyGoVersion (some out) = .error (.unexpectedOutput out) := by
  have hn : (fieldsChars out.data)[2]? = none :=
    List.getElem?_eq_none (by omega)
  simp [verifyGoVersion, hn]

/-- Claim C10 witness: a one-field output produces the unexpected-output
error. -/
theorem c10_guarded_fields_witness :
    verifyGoVersion (some "go") = .error (.unexpectedOutput "go") :=
  c10_guarded_fields "go" (by decide)
